/-
Verification of the crawler core (src/crawler.py) against its specification.

The development shallowly embeds the crawler's pure logic and its traversal
state machine in Lean:

* strings stay Lean `String`s; Python `str.lower`, `in` (substring),
  `startswith` and `rstrip` are mapped to executable helpers below;
* `urllib.parse.urlparse` results are modelled by the `UrlParts` structure
  (scheme, netloc, path), since the crawler only reads those components;
* the external collaborators (HTTP transport, BeautifulSoup anchor
  extraction, robots evaluation, filesystem success/failure, hash-based
  storage paths) are supplied by an `Env` of oracle functions, so every
  theorem quantifies over all of their behaviours;
* the per-seed queue loop of `Crawler.crawl_seed` and the per-seed driver
  `Crawler.run` become a step function `loopStep` iterated with fuel, with
  an event trace recording dequeues, politeness sleeps, fetches, saves and
  enqueues, and with the durable stores (content blobs, metadata records)
  made explicit in the state.
-/
import Mathlib

namespace Crawler

/-- Membership of `needle` as a contiguous run inside `haystack`, by
structural recursion (so that concrete instances evaluate in the kernel). -/
def containsAux (needle : List Char) : List Char → Bool
  | [] => needle.isPrefixOf []
  | c :: rest => needle.isPrefixOf (c :: rest) || containsAux needle rest

/-- Python `needle in haystack` substring test, on the underlying char lists. -/
def strContains (haystack needle : String) : Bool :=
  containsAux needle.toList haystack.toList

/-- Python `s.startswith(p)`, on the underlying char lists. -/
def strStartsWith (s p : String) : Bool :=
  p.toList.isPrefixOf s.toList

/-- Python `s.lower()`, on the underlying char lists. -/
def strLower (s : String) : String :=
  String.mk (s.toList.map Char.toLower)

/-- Python `s.rstrip('/')`: remove all trailing slash characters. -/
def rstripSlash (s : String) : String :=
  String.mk ((s.toList.reverse.dropWhile (· == '/')).reverse)

/-- Result of `urllib.parse.urlparse` restricted to the components the
crawler reads: scheme, netloc (host, with port and userinfo) and path. -/
structure UrlParts where
  scheme : String
  netloc : String
  path : String
deriving DecidableEq, Repr

/-- `Crawler.should_follow` (src/crawler.py lines 185-222) on parsed URLs:
same netloc as the seed, and the candidate path must start with the seed
path trimmed of trailing slashes, unless that trimmed path is empty or the
root. -/
def should_follow (url seed : UrlParts) : Bool :=
  if url.netloc != seed.netloc then
    false
  else
    let seedPathTrimmed := rstripSlash seed.path
    if seedPathTrimmed == "" || seedPathTrimmed == "/" then
      true
    else if !(strStartsWith url.path seedPathTrimmed) then
      false
    else
      true

/-- C4: `shouldFollow(candidate, seed)` is true iff the hosts (netloc, which
carries the port) are exactly equal and either the seed's path with trailing
slashes removed is empty or the root, or the candidate's path starts with
that trimmed seed path as a literal string prefix. -/
theorem C4_should_follow_characterization (u s : UrlParts) :
    should_follow u s = true ↔
      (u.netloc = s.netloc ∧
        (rstripSlash s.path = "" ∨ rstripSlash s.path = "/" ∨
          strStartsWith u.path (rstripSlash s.path) = true)) := by
  unfold should_follow
  split_ifs <;> simp_all [bne_iff_ne]
  tauto

/-- C10: `shouldFollow` never reads the scheme component of either URL, so
its result is invariant under replacing the scheme of the candidate or of
the seed (e.g. https by http): only netloc and path are compared. -/
theorem C10_should_follow_scheme_invariant (u s : UrlParts)
    (schemeU schemeS : String) :
    should_follow ⟨schemeU, u.netloc, u.path⟩ ⟨schemeS, s.netloc, s.path⟩ =
      should_follow u s :=
  rfl

/-! ## Fetcher (`Crawler.fetch_page`, src/crawler.py lines 114-150) -/

/-- The tuple returned by `Crawler.fetch_page`:
`(content, status_code, content_type, content_length)`, with the absent body
of a failed fetch modelled by `none`.  Response bytes are abstracted as a
Lean `String`. -/
structure FetchResult where
  body : Option String
  status : Nat
  contentType : String
  contentLength : Nat
deriving DecidableEq, Repr

/-- Outcome of one attempt of `self.session.get` inside `fetch_page`:
a response, or one of the exceptions the code catches
(`Timeout`, `ConnectionError`, or any other `RequestException`). -/
inductive AttemptOutcome where
  | success (content : String) (status : Nat) (ctypeHeader : String)
  | timeout
  | connError
  | reqError
deriving DecidableEq, Repr

/-- The failure tuple `(None, 0, "", 0)` returned by `fetch_page`. -/
def failRes : FetchResult := ⟨none, 0, "", 0⟩

/-- The tuple `fetch_page` builds from a response: the raw content, the
status code, the lower-cased Content-Type header, and the content length. -/
def okRes (content : String) (status : Nat) (ctypeHeader : String) : FetchResult :=
  ⟨some content, status, strLower ctypeHeader, content.length⟩

/-- Transient attempt outcomes: the two exception classes `fetch_page`
retries on. -/
def transient (o : AttemptOutcome) : Prop :=
  o = .timeout ∨ o = .connError

/-- The `for attempt in range(3)` loop of `fetch_page`, with the network
modelled as a map from attempt index to outcome.  Returns the result tuple
together with the list of back-off sleeps (`2 ** attempt` seconds) that were
performed; no sleep happens after the last attempt (`attempt < 2` guard). -/
def fetchIter (att : Nat → AttemptOutcome) : Nat → Nat → FetchResult × List Nat
  | _, 0 => (failRes, [])
  | i, n + 1 =>
    match att i with
    | .success c st ct => (okRes c st ct, [])
    | .timeout =>
      let sleeps := if i < 2 then [2 ^ i] else []
      let r := fetchIter att (i + 1) n
      (r.1, sleeps ++ r.2)
    | .connError =>
      let sleeps := if i < 2 then [2 ^ i] else []
      let r := fetchIter att (i + 1) n
      (r.1, sleeps ++ r.2)
    | .reqError => (failRes, [])

/-- `Crawler.fetch_page`: up to 3 total attempts starting at attempt 0. -/
def fetch_page (att : Nat → AttemptOutcome) : FetchResult × List Nat :=
  fetchIter att 0 3

/-- C5: `fetch_page` (1) consults at most the first 3 attempts; (2) a
non-transient request error short-circuits with `(None, 0, "", 0)` and no
sleeps; (3) three transient failures return `(None, 0, "", 0)` after back-off
sleeps of 2^0 and 2^1 seconds (none after the last attempt); (4) one
transient failure followed by a response returns that response's tuple after
a single 2^0-second sleep; (5) two transient failures followed by a response
return that response's tuple, with back-off sleeps of 2^0 and 2^1 seconds. -/
theorem C5_fetch_retry :
    (∀ att att' : Nat → AttemptOutcome, (∀ i, i < 3 → att i = att' i) →
      fetch_page att = fetch_page att') ∧
    (∀ att : Nat → AttemptOutcome, att 0 = .reqError →
      fetch_page att = (failRes, [])) ∧
    (∀ att : Nat → AttemptOutcome, (∀ i, i < 3 → transient (att i)) →
      fetch_page att = (failRes, [1, 2])) ∧
    (∀ (att : Nat → AttemptOutcome) (c : String) (st : Nat) (ct : String),
      transient (att 0) → att 1 = .success c st ct →
      fetch_page att = (okRes c st ct, [1])) ∧
    (∀ (att : Nat → AttemptOutcome) (c : String) (st : Nat) (ct : String),
      transient (att 0) → transient (att 1) → att 2 = .success c st ct →
      fetch_page att = (okRes c st ct, [1, 2])) := by
  refine ⟨?_, ?_, ?_, ?_, ?_⟩
  · intro att att' h
    have h0 : att 0 = att' 0 := h 0 (by omega)
    have h1 : att 1 = att' 1 := h 1 (by omega)
    have h2 : att 2 = att' 2 := h 2 (by omega)
    unfold fetch_page
    cases o0 : att' 0 <;> cases o1 : att' 1 <;> cases o2 : att' 2 <;>
      simp [fetchIter, h0, h1, h2, o0, o1, o2]
  · intro att h
    simp [fetch_page, fetchIter, h]
  · intro att h
    have h0 := h 0 (by omega)
    have h1 := h 1 (by omega)
    have h2 := h 2 (by omega)
    rcases h0 with h0 | h0 <;> rcases h1 with h1 | h1 <;>
      rcases h2 with h2 | h2 <;> simp [fetch_page, fetchIter, h0, h1, h2]
  · intro att c st ct h0 h1
    rcases h0 with h0 | h0 <;> simp [fetch_page, fetchIter, h0, h1]
  · intro att c st ct h0 h1 h2
    rcases h0 with h0 | h0 <;> rcases h1 with h1 | h1 <;>
      simp [fetch_page, fetchIter, h0, h1, h2]

/-- Witness for C5 at a concrete attempt sequence: timeout, connection
error, then a successful response. -/
theorem C5_fetch_retry_witness :
    fetch_page (fun i => match i with
      | 0 => .timeout
      | 1 => .connError
      | _ => .success "page" 200 "TEXT/HTML") =
      (okRes "page" 200 "TEXT/HTML", [1, 2]) :=
  C5_fetch_retry.2.2.2.2 _ "page" 200 "TEXT/HTML" (Or.inl rfl) (Or.inr rfl) rfl

/-! ## Link extraction (`Crawler.parse_links`, src/crawler.py lines 152-183)

The anchor `href` values themselves come from BeautifulSoup, an external
collaborator, so `parse_links` is modelled on the list of raw `href` strings
it yields.  URL resolution is Python's `urllib.parse.urljoin`, an external
standard-library function: it is modelled below for the reference shapes
this development uses (absolute references carrying a scheme, root-relative
paths, fragment-only references, and simple relative paths; no `..`
normalization, query merging, or network-path references). -/

/-- Python `absolute_url.split('#')[0]`: the prefix before the first `#`. -/
def stripFrag (s : String) : String :=
  String.mk (s.toList.takeWhile (· != '#'))

/-- Split a URL at its `://` separator, returning the scheme's characters
and the remainder, or `none` when there is no separator. -/
def splitScheme : List Char → Option (List Char × List Char)
  | ':' :: '/' :: '/' :: rest => some ([], rest)
  | c :: rest =>
    match splitScheme rest with
    | some (pre, post) => some (c :: pre, post)
    | none => none
  | [] => none

/-- The `scheme://netloc` part of a URL, used as the resolution base for
root-relative references. -/
def schemeNetloc (base : String) : String :=
  match splitScheme base.toList with
  | some (sch, rest) =>
    String.mk (sch ++ [':', '/', '/'] ++ rest.takeWhile (· != '/'))
  | none => ""

/-- Everything up to and including the last `/` of a string. -/
def upToLastSlash (s : String) : String :=
  String.mk ((s.toList.reverse.dropWhile (· != '/')).reverse)

/-- Models Python's `urllib.parse.urljoin` (external standard library) on
the URL shapes exercised in this development: a reference with a scheme is
absolute; a root-relative reference is resolved against `scheme://netloc`
of the base; a fragment-only reference replaces the base's fragment; other
relative references are resolved against the base's path directory. -/
def urljoin (base href : String) : String :=
  if (splitScheme href.toList).isSome then href
  else if strStartsWith href "/" then schemeNetloc base ++ href
  else if strStartsWith href "#" then stripFrag base ++ href
  else upToLastSlash (stripFrag base) ++ href

/-- The accumulation loop of `Crawler.parse_links`: for each `href`, resolve
against the base URL, strip the fragment, and add nonempty results to the
set of links.  The Python `set` is modelled as a duplicate-free list in
insertion order. -/
def parseLinksAux (join : String → String → String) (base : String) :
    List String → List String → List String
  | [], acc => acc
  | href :: rest, acc =>
    if stripFrag (join base href) != "" &&
        !(acc.contains (stripFrag (join base href))) then
      parseLinksAux join base rest (acc ++ [stripFrag (join base href)])
    else
      parseLinksAux join base rest acc

/-- `Crawler.parse_links` on the href values extracted by the external HTML
parser, parameterized by the URL resolver. -/
def parse_links (join : String → String → String) (hrefs : List String)
    (base : String) : List String :=
  parseLinksAux join base hrefs []

theorem contains_true_iff (l : List String) (a : String) :
    l.contains a = true ↔ a ∈ l :=
  List.elem_iff

theorem contains_false_iff (l : List String) (a : String) :
    l.contains a = false ↔ a ∉ l := by
  rw [← contains_true_iff]
  cases l.contains a <;> simp

theorem mem_parseLinksAux (join : String → String → String) (base : String)
    (hrefs : List String) (acc : List String) (x : String) :
    x ∈ parseLinksAux join base hrefs acc ↔
      x ∈ acc ∨ (x ≠ "" ∧ ∃ h ∈ hrefs, x = stripFrag (join base h)) := by
  induction hrefs generalizing acc with
  | nil => simp [parseLinksAux]
  | cons h t ih =>
    simp only [parseLinksAux]
    split_ifs with hc
    · rw [Bool.and_eq_true, bne_iff_ne] at hc
      have hne : stripFrag (join base h) ≠ "" := hc.1
      rw [ih]
      simp only [List.mem_append, List.mem_cons, List.not_mem_nil, or_false]
      constructor
      · rintro ((hx | hx) | ⟨hxne, h', hh', hx⟩)
        · exact Or.inl hx
        · exact Or.inr ⟨hx ▸ hne, h, Or.inl rfl, hx⟩
        · exact Or.inr ⟨hxne, h', Or.inr hh', hx⟩
      · rintro (hx | ⟨hxne, h', hh', hx⟩)
        · exact Or.inl (Or.inl hx)
        · rcases hh' with hh' | hh'
          · exact Or.inl (Or.inr (hh' ▸ hx))
          · exact Or.inr ⟨hxne, h', hh', hx⟩
    · have hc' : stripFrag (join base h) ≠ "" → stripFrag (join base h) ∈ acc := by
        intro hne
        by_cases hm : stripFrag (join base h) ∈ acc
        · exact hm
        · exact absurd (by
            rw [Bool.and_eq_true, bne_iff_ne]
            exact ⟨hne, by
              rw [Bool.not_eq_true', contains_false_iff]
              exact hm⟩) hc
      rw [ih]
      constructor
      · rintro (hx | ⟨hxne, h', hh', hx⟩)
        · exact Or.inl hx
        · exact Or.inr ⟨hxne, h', List.mem_cons_of_mem _ hh', hx⟩
      · rintro (hx | ⟨hxne, h', hh', hx⟩)
        · exact Or.inl hx
        · rcases List.mem_cons.mp hh' with hh' | hh'
          · subst hh'
            subst hx
            exact Or.inl (hc' hxne)
          · exact Or.inr ⟨hxne, h', hh', hx⟩

/-- C7 as stated is false at the claim's own example: the fragment-only
anchor resolves to the bare base URL, which survives fragment stripping,
is nonempty, and therefore enters the extracted set; the set consequently
has a fourth element `https://h/` beyond the claimed three. -/
theorem C7_extract_links_counterexample :
    ¬ (∀ x : String,
        x ∈ parse_links urljoin ["/a", "/b", "https://h/c", "#frag"] "https://h/" ↔
          x ∈ ["https://h/a", "https://h/b", "https://h/c"]) := by
  intro h
  exact absurd ((h "https://h/").mp (by decide)) (by decide)

/-- C7 amended: `parse_links` resolves each href against the base URL,
strips any fragment, and keeps exactly the nonempty results; on the
claim's example the extracted set is `{https://h/a, https://h/b,
https://h/c, https://h/}`, the bare base URL included (contributed by the
fragment-only anchor). -/
theorem C7_extract_links_amended :
    (∀ (join : String → String → String) (hrefs : List String) (base x : String),
      x ∈ parse_links join hrefs base ↔
        (x ≠ "" ∧ ∃ h ∈ hrefs, x = stripFrag (join base h))) ∧
    (∀ x : String,
      x ∈ parse_links urljoin ["/a", "/b", "https://h/c", "#frag"] "https://h/" ↔
        x ∈ ["https://h/a", "https://h/b", "https://h/c", "https://h/"]) := by
  constructor
  · intro join hrefs base x
    rw [parse_links, mem_parseLinksAux]
    simp
  · intro x
    rw [show parse_links urljoin ["/a", "/b", "https://h/c", "#frag"] "https://h/" =
      ["https://h/a", "https://h/b", "https://h/c", "https://h/"] from by decide]

/-- Witness for C7 at a concrete member: the bare base URL is extracted. -/
theorem C7_extract_links_amended_witness :
    "https://h/" ∈ parse_links urljoin ["/a", "/b", "https://h/c", "#frag"] "https://h/" :=
  (C7_extract_links_amended.2 "https://h/").mpr (by decide)

/-! ## Traversal engine (`Crawler.crawl_seed` and `Crawler.run`,
src/crawler.py lines 294-395) -/

/-- A frontier entry `(url, depth, parent_url)` as queued by `crawl_seed`. -/
structure Entry where
  url : String
  depth : Nat
  parent : String
deriving DecidableEq, Repr

/-- The configuration values the traversal reads: `--max-pages`
(0 = unbounded) and `--depth`. -/
structure Config where
  maxPages : Nat
  maxDepth : Nat
deriving DecidableEq, Repr

/-- The run's external collaborators as deterministic oracles: the robots
permission per URL (`can_fetch`; deterministic within one run thanks to the
per-domain cache), the fetch result per URL (each URL is fetched at most
once per run, see C3), the resolved links `parse_links` yields for a page
in the order Python's set iteration presents them, the components
`urllib.parse.urlparse` assigns to each URL string, and the filesystem:
whether `save_raw`'s directory creation succeeds (`mkdirOk`), whether the
content write and the metadata append succeed, and the hash-derived
storage path `save_raw` builds. -/
structure Env where
  canFetch : String → Bool
  fetch : String → FetchResult
  links : String → List String
  parse : String → UrlParts
  mkdirOk : String → Bool
  saveOk : String → Bool
  metaOk : String → Bool
  savePath : String → Bool → String

/-- The file-extension test of src/crawler.py lines 343 and 364:
`any(ext in url.lower() for ext in ['.pdf', '.doc', '.docx'])`, a
case-insensitive substring match over the full URL string. -/
def isFileUrl (url : String) : Bool :=
  strContains (strLower url) ".pdf" || strContains (strLower url) ".doc" ||
    strContains (strLower url) ".docx"

/-- One line of `index.jsonl` (`Crawler.log_metadata`), without the wall
clock timestamp. -/
structure MetaRecord where
  url : String
  status : Nat
  contentType : String
  savedPath : String
  depth : Nat
  parent : String
  contentLength : Nat
deriving DecidableEq, Repr

/-- Observable events of a run: a dequeue (recording whether the URL was
already visited at that moment), a politeness sleep, a call to
`fetch_page` (recording whether a body came back), a save, an enqueue, and
an unhandled exception escaping `save_raw` (see `crashed` on `State`). -/
inductive Event where
  | deq (url : String) (depth : Nat) (alreadyVisited : Bool)
  | slept (url : String)
  | fetched (url : String) (depth : Nat) (ok : Bool)
  | saved (url : String) (isFile : Bool) (ok : Bool)
  | enq (entry : Entry)
  | crashed (url : String)
deriving DecidableEq, Repr

/-- Mutable state of one run: the visited set (in insertion order), the
page budget counter, the current seed's queue, the durable stores (metadata
records and content blobs), the event trace of the whole run, and whether
an unhandled exception has escaped (after which the process is dead and
nothing further runs). -/
structure State where
  visited : List String
  pagesCrawled : Nat
  queue : List Entry
  events : List Event
  records : List MetaRecord
  blobs : List (String × String)
  crashed : Bool
deriving DecidableEq, Repr

/-- The `try` block of `Crawler.save_raw` (lines 261-268): returns the
storage path on a successful write and `""` when the write raises — that
exception is caught inside. -/
def tryWrite (env : Env) (url : String) (isFile : Bool) : String :=
  if env.saveOk url then env.savePath url isFile else ""

/-- `Crawler.save_raw` (lines 224-268): first the `mkdir(parents=True,
exist_ok=True)` calls (line 248 for files, line 254 for HTML), which sit
OUTSIDE the `try` block — an I/O failure there raises past `save_raw`
(modelled as `none`); then the guarded write of `tryWrite`. -/
def save_raw (env : Env) (url : String) (isFile : Bool) : Option String :=
  if env.mkdirOk url then some (tryWrite env url isFile) else none

/-- `Crawler.log_metadata` (lines 270-292): appends one record to
`index.jsonl` unless the write raises — the exception is caught inside. -/
def log_metadata (env : Env) (r : MetaRecord) (records : List MetaRecord) :
    List MetaRecord :=
  if env.metaOk r.url then records ++ [r] else records

/-- The link-enqueueing loop of src/crawler.py lines 361-369: a discovered
link is followed when it is not yet visited and passes the scope policy;
file-extension links keep the referring page's depth, all others go one
level deeper; the current URL becomes the parent. -/
def expandLinks (env : Env) (seedUrl : String) (visited : List String)
    (d : Nat) (cur : String) (links : List String) : List Entry :=
  links.filterMap fun link =>
    if !(visited.contains link) &&
        should_follow (env.parse link) (env.parse seedUrl) then
      if isFileUrl link then
        some ⟨link, d, cur⟩
      else
        some ⟨link, d + 1, cur⟩
    else
      none

/-- The `while` guard of src/crawler.py line 306 (page-budget part). -/
def budgetOk (cfg : Config) (s : State) : Bool :=
  cfg.maxPages == 0 || s.pagesCrawled < cfg.maxPages

/-- One iteration of the per-seed queue loop (src/crawler.py lines
306-369).  When the process has died of an unhandled exception, or the
queue is empty, or the `while` guard fails, the state is returned
unchanged: nothing further runs and iterations are the identity. -/
def loopStep (cfg : Config) (env : Env) (seedUrl : String) (s : State) : State :=
  if s.crashed then s
  else match s.queue with
  | [] => s
  | e :: rest =>
    if !(budgetOk cfg s) then s
    else
      let s0 : State :=
        { s with
          queue := rest,
          events := s.events ++
            [Event.deq e.url e.depth (s.visited.contains e.url)] }
      if s.visited.contains e.url then s0
      else if cfg.maxDepth < e.depth then s0
      else if !(env.canFetch e.url) then s0
      else
        let visited' := s.visited ++ [e.url]
        let sleepEvs := if 0 < s.pagesCrawled then [Event.slept e.url] else []
        let fr := env.fetch e.url
        match fr.body with
        | none =>
          { s0 with
            visited := visited',
            events := s0.events ++ sleepEvs ++ [Event.fetched e.url e.depth false] }
        | some _ =>
          let isHtml := strContains fr.contentType "text/html"
          if isFileUrl e.url || !isHtml then
            match save_raw env e.url true with
            | none =>
              { s0 with
                visited := visited',
                pagesCrawled := s.pagesCrawled + 1,
                events := s0.events ++ sleepEvs ++
                  [Event.fetched e.url e.depth true, Event.crashed e.url],
                crashed := true }
            | some path =>
              { s0 with
                visited := visited',
                pagesCrawled := s.pagesCrawled + 1,
                events := s0.events ++ sleepEvs ++
                  [Event.fetched e.url e.depth true,
                   Event.saved e.url true (env.saveOk e.url)],
                records := log_metadata env
                  ⟨e.url, fr.status, fr.contentType, path,
                    e.depth, e.parent, fr.contentLength⟩ s.records,
                blobs := if env.saveOk e.url then
                    s.blobs ++ [(e.url, path)]
                  else s.blobs }
          else
            match save_raw env e.url false with
            | none =>
              { s0 with
                visited := visited',
                pagesCrawled := s.pagesCrawled + 1,
                events := s0.events ++ sleepEvs ++
                  [Event.fetched e.url e.depth true, Event.crashed e.url],
                crashed := true }
            | some path =>
              let newEntries := if e.depth < cfg.maxDepth then
                  expandLinks env seedUrl visited' e.depth e.url (env.links e.url)
                else []
              { s0 with
                visited := visited',
                pagesCrawled := s.pagesCrawled + 1,
                queue := rest ++ newEntries,
                events := s0.events ++ sleepEvs ++
                  [Event.fetched e.url e.depth true,
                   Event.saved e.url false (env.saveOk e.url)] ++
                  newEntries.map Event.enq,
                records := log_metadata env
                  ⟨e.url, fr.status, fr.contentType, path,
                    e.depth, e.parent, fr.contentLength⟩ s.records,
                blobs := if env.saveOk e.url then
                    s.blobs ++ [(e.url, path)]
                  else s.blobs }

/-- The queue loop of `Crawler.crawl_seed`, run for `fuel` iterations. -/
def crawlLoop (cfg : Config) (env : Env) (seedUrl : String) :
    Nat → State → State
  | 0, s => s
  | n + 1, s => crawlLoop cfg env seedUrl n (loopStep cfg env seedUrl s)

/-- Entry into `Crawler.crawl_seed`: a fresh queue holding
`(seed_url, 0, "")` (line 304); visited set, counters and stores persist
across seeds. -/
def startSeed (seedUrl : String) (s : State) : State :=
  { s with queue := [⟨seedUrl, 0, ""⟩] }

/-- The seed loop of `Crawler.run` (lines 385-390): before each seed the
budget is re-checked and the loop breaks once the budget is reached; each
seed then runs its own queue loop over the shared state.  An unhandled
exception from a seed's loop propagates out of `run` as well, so no
further seed starts once the state is crashed. -/
def runSeeds (cfg : Config) (env : Env) (fuel : Nat) :
    List String → State → State
  | [], s => s
  | seed :: rest, s =>
    if (0 < cfg.maxPages && cfg.maxPages ≤ s.pagesCrawled) || s.crashed then s
    else runSeeds cfg env fuel rest (crawlLoop cfg env seed fuel (startSeed seed s))

/-- The fresh per-run state built in `Crawler.__init__`. -/
def initState : State := ⟨[], 0, [], [], [], [], false⟩

/-- `Crawler.run` from a fresh crawler state. -/
def runCrawler (cfg : Config) (env : Env) (seeds : List String) (fuel : Nat) :
    State :=
  runSeeds cfg env fuel seeds initState

/-- C6: an entry is enqueued by the link-expansion loop exactly when it is
a discovered link that is not yet visited and passes the scope policy; a
link matching the file-extension set (case-insensitive substring of the
full URL) is enqueued at the referring page's depth `d`, every other such
link at `d + 1`, in both cases with the current URL as parent. -/
theorem C6_link_enqueue_depths (env : Env) (seedUrl : String)
    (visited : List String) (d : Nat) (cur : String) (links : List String)
    (e : Entry) :
    e ∈ expandLinks env seedUrl visited d cur links ↔
      ∃ link ∈ links, visited.contains link = false ∧
        should_follow (env.parse link) (env.parse seedUrl) = true ∧
        e = ⟨link, if isFileUrl link then d else d + 1, cur⟩ := by
  unfold expandLinks
  rw [List.mem_filterMap]
  constructor
  · rintro ⟨link, hl, hf⟩
    split_ifs at hf with hg hfile
    · rw [Bool.and_eq_true, Bool.not_eq_true'] at hg
      obtain rfl : (⟨link, d, cur⟩ : Entry) = e := Option.some.inj hf
      exact ⟨link, hl, hg.1, hg.2, by simp [hfile]⟩
    · rw [Bool.and_eq_true, Bool.not_eq_true'] at hg
      obtain rfl : (⟨link, d + 1, cur⟩ : Entry) = e := Option.some.inj hf
      exact ⟨link, hl, hg.1, hg.2, by simp [hfile]⟩
  · rintro ⟨link, hl, hv, hs, he⟩
    refine ⟨link, hl, ?_⟩
    rw [if_pos (by rw [Bool.and_eq_true, Bool.not_eq_true']; exact ⟨hv, hs⟩)]
    cases hfile : isFileUrl link <;> simp [hfile] at he <;> simp [he]

/-- Environment for concrete witnesses: every URL parses to the same host
with a root path, everything is permitted and every write succeeds. -/
def envW : Env where
  canFetch := fun _ => true
  fetch := fun _ => failRes
  links := fun _ => []
  parse := fun _ => ⟨"https", "h", "/"⟩
  mkdirOk := fun _ => true
  saveOk := fun _ => true
  metaOk := fun _ => true
  savePath := fun _ _ => "p"

/-- Witness for C6: a `.pdf` link is enqueued at the referring depth 0 and
a plain link at depth 1, both with the current URL as parent. -/
theorem C6_link_enqueue_depths_witness :
    (⟨"https://h/x.pdf", 0, "cur"⟩ : Entry) ∈
        expandLinks envW "https://h/" [] 0 "cur" ["https://h/x.pdf", "https://h/y"] ∧
      (⟨"https://h/y", 1, "cur"⟩ : Entry) ∈
        expandLinks envW "https://h/" [] 0 "cur" ["https://h/x.pdf", "https://h/y"] :=
  ⟨(C6_link_enqueue_depths envW "https://h/" [] 0 "cur"
      ["https://h/x.pdf", "https://h/y"] _).mpr
      ⟨"https://h/x.pdf", by decide, by decide, by decide, by decide⟩,
    (C6_link_enqueue_depths envW "https://h/" [] 0 "cur"
      ["https://h/x.pdf", "https://h/y"] _).mpr
      ⟨"https://h/y", by decide, by decide, by decide, by decide⟩⟩

/-! ## Case analysis of one loop iteration

`loopStep_split` names the five possible outcomes of one queue-loop
iteration — loop exit, entry skipped, fetch without body, non-HTML/file
page, HTML page — as explicit state shapes; the run-level invariants are
all derived from it. -/

/-- The politeness-sleep events of one iteration (src/crawler.py lines
326-329): one sleep, unless no page has been crawled yet. -/
def sleepEvs (s : State) (e : Entry) : List Event :=
  if 0 < s.pagesCrawled then [Event.slept e.url] else []

/-- State after a skipped entry (already visited, beyond the depth bound,
or disallowed by robots): only the dequeue is recorded. -/
def skipState (s : State) (e : Entry) (rest : List Entry) : State :=
  { s with
    queue := rest,
    events := s.events ++ [Event.deq e.url e.depth (s.visited.contains e.url)] }

/-- State after a fetch that returned no body: the URL is visited, nothing
is persisted, nothing is enqueued, the page counter is unchanged. -/
def failState (s : State) (e : Entry) (rest : List Entry) : State :=
  { s with
    queue := rest,
    visited := s.visited ++ [e.url],
    events := s.events ++ [Event.deq e.url e.depth false] ++ sleepEvs s e ++
      [Event.fetched e.url e.depth false] }

/-- State after the fetch of a page returned a body but `save_raw`'s
directory creation raised: the exception escapes `crawl_seed` and `run`,
nothing is persisted and the process dies. -/
def crashState (s : State) (e : Entry) (rest : List Entry) : State :=
  { s with
    queue := rest,
    visited := s.visited ++ [e.url],
    pagesCrawled := s.pagesCrawled + 1,
    events := s.events ++ [Event.deq e.url e.depth false] ++ sleepEvs s e ++
      [Event.fetched e.url e.depth true, Event.crashed e.url],
    crashed := true }

/-- State after fetching a file-extension or non-HTML page: saved as a
binary file, metadata logged, no links followed. -/
def fileState (env : Env) (s : State) (e : Entry) (rest : List Entry) : State :=
  { s with
    queue := rest,
    visited := s.visited ++ [e.url],
    pagesCrawled := s.pagesCrawled + 1,
    events := s.events ++ [Event.deq e.url e.depth false] ++ sleepEvs s e ++
      [Event.fetched e.url e.depth true,
       Event.saved e.url true (env.saveOk e.url)],
    records := log_metadata env
      ⟨e.url, (env.fetch e.url).status, (env.fetch e.url).contentType,
        tryWrite env e.url true, e.depth, e.parent,
        (env.fetch e.url).contentLength⟩ s.records,
    blobs := if env.saveOk e.url then
        s.blobs ++ [(e.url, tryWrite env e.url true)]
      else s.blobs }

/-- The entries enqueued from an HTML page: link expansion happens only
below the depth bound. -/
def newLinkEntries (cfg : Config) (env : Env) (sd : String) (s : State)
    (e : Entry) : List Entry :=
  if e.depth < cfg.maxDepth then
    expandLinks env sd (s.visited ++ [e.url]) e.depth e.url (env.links e.url)
  else []

/-- State after fetching an HTML page: saved as HTML, metadata logged, and
in-scope unvisited links enqueued when below the depth bound. -/
def htmlState (cfg : Config) (env : Env) (sd : String) (s : State)
    (e : Entry) (rest : List Entry) : State :=
  { s with
    queue := rest ++ newLinkEntries cfg env sd s e,
    visited := s.visited ++ [e.url],
    pagesCrawled := s.pagesCrawled + 1,
    events := s.events ++ [Event.deq e.url e.depth false] ++ sleepEvs s e ++
      [Event.fetched e.url e.depth true,
       Event.saved e.url false (env.saveOk e.url)] ++
      (newLinkEntries cfg env sd s e).map Event.enq,
    records := log_metadata env
      ⟨e.url, (env.fetch e.url).status, (env.fetch e.url).contentType,
        tryWrite env e.url false, e.depth, e.parent,
        (env.fetch e.url).contentLength⟩ s.records,
    blobs := if env.saveOk e.url then
        s.blobs ++ [(e.url, tryWrite env e.url false)]
      else s.blobs }

theorem loopStep_split (cfg : Config) (env : Env) (sd : String) (s : State) :
    ((s.crashed = true ∨ s.queue = [] ∨ budgetOk cfg s = false) ∧
      loopStep cfg env sd s = s) ∨
    ∃ e rest, s.queue = e :: rest ∧ budgetOk cfg s = true ∧
      (((e.url ∈ s.visited ∨ cfg.maxDepth < e.depth ∨
          env.canFetch e.url = false) ∧
        loopStep cfg env sd s = skipState s e rest) ∨
      (e.url ∉ s.visited ∧ e.depth ≤ cfg.maxDepth ∧
        env.canFetch e.url = true ∧
        (((env.fetch e.url).body = none ∧
            loopStep cfg env sd s = failState s e rest) ∨
          ((env.fetch e.url).body ≠ none ∧ env.mkdirOk e.url = false ∧
            loopStep cfg env sd s = crashState s e rest) ∨
          ((env.fetch e.url).body ≠ none ∧ env.mkdirOk e.url = true ∧
            (isFileUrl e.url = true ∨
              strContains (env.fetch e.url).contentType "text/html" = false) ∧
            loopStep cfg env sd s = fileState env s e rest) ∨
          ((env.fetch e.url).body ≠ none ∧ env.mkdirOk e.url = true ∧
            (isFileUrl e.url = false ∧
              strContains (env.fetch e.url).contentType "text/html" = true) ∧
            loopStep cfg env sd s = htmlState cfg env sd s e rest)))) := by
  by_cases hcr : s.crashed = true
  · exact Or.inl ⟨Or.inl hcr, by simp [loopStep, hcr]⟩
  have hcr' : s.crashed = false := by simpa using hcr
  cases hq : s.queue with
  | nil => exact Or.inl ⟨Or.inr (Or.inl rfl), by simp [loopStep, hq, hcr']⟩
  | cons e rest =>
    by_cases hbud : budgetOk cfg s = true
    case neg =>
      have hb' : budgetOk cfg s = false := by simpa using hbud
      exact Or.inl ⟨Or.inr (Or.inr hb'), by simp [loopStep, hq, hb', hcr']⟩
    case pos =>
      refine Or.inr ⟨e, rest, rfl, hbud, ?_⟩
      by_cases hvis : e.url ∈ s.visited
      · exact Or.inl ⟨Or.inl hvis,
          by simp [loopStep, hq, hcr', hbud, hvis, skipState]⟩
      · by_cases hdep : cfg.maxDepth < e.depth
        · exact Or.inl ⟨Or.inr (Or.inl hdep),
            by simp [loopStep, hq, hcr', hbud, hvis, hdep, skipState]⟩
        · have hdep' : e.depth ≤ cfg.maxDepth := Nat.le_of_not_lt hdep
          by_cases hrob : env.canFetch e.url = true
          case neg =>
            have hrob' : env.canFetch e.url = false := by simpa using hrob
            exact Or.inl ⟨Or.inr (Or.inr hrob'),
              by simp [loopStep, hq, hcr', hbud, hvis, hdep, hrob', skipState]⟩
          case pos =>
            refine Or.inr ⟨hvis, hdep', hrob, ?_⟩
            cases hfb : (env.fetch e.url).body with
            | none =>
              exact Or.inl ⟨rfl, by
                simp [loopStep, hq, hcr', hbud, hvis, hdep, hrob, hfb,
                  failState, sleepEvs]⟩
            | some c =>
              by_cases hmk : env.mkdirOk e.url = true
              case neg =>
                have hmk' : env.mkdirOk e.url = false := by simpa using hmk
                refine Or.inr (Or.inl ⟨by simp, hmk', ?_⟩)
                simp [loopStep, hq, hcr', hbud, hvis, hdep, hrob, hfb, hmk',
                  save_raw, crashState, sleepEvs]
              case pos =>
                by_cases hfile : isFileUrl e.url = true ∨
                    strContains (env.fetch e.url).contentType "text/html" = false
                · refine Or.inr (Or.inr (Or.inl ⟨by simp, hmk, hfile, ?_⟩))
                  simp [loopStep, hq, hcr', hbud, hvis, hdep, hrob, hfb, hmk,
                    hfile, save_raw, fileState, sleepEvs]
                · have hno := not_or.mp hfile
                  have hfile1 : isFileUrl e.url = false := by simpa using hno.1
                  have hfile2 :
                      strContains (env.fetch e.url).contentType "text/html" = true := by
                    simpa using hno.2
                  refine Or.inr (Or.inr (Or.inr ⟨by simp, hmk, ⟨hfile1, hfile2⟩, ?_⟩))
                  simp [loopStep, hq, hcr', hbud, hvis, hdep, hrob, hfb, hmk,
                    hfile1, hfile2, save_raw, htmlState, newLinkEntries, sleepEvs]

/-! ## Run-level invariants -/

theorem crawlLoop_pres (cfg : Config) (env : Env) (sd : String)
    (P : State → Prop)
    (hstep : ∀ s, P s → P (loopStep cfg env sd s)) :
    ∀ (n : Nat) (s : State), P s → P (crawlLoop cfg env sd n s)
  | 0, _, h => h
  | n + 1, s, h => crawlLoop_pres cfg env sd P hstep n _ (hstep s h)

theorem runSeeds_pres (cfg : Config) (env : Env) (fuel : Nat)
    (P : State → Prop)
    (hstep : ∀ sd s, P s → P (loopStep cfg env sd s))
    (hstart : ∀ sd s, P s → P (startSeed sd s)) :
    ∀ (seeds : List String) (s : State), P s → P (runSeeds cfg env fuel seeds s)
  | [], _, h => h
  | seed :: rest, s, h => by
    simp only [runSeeds]
    split_ifs with hb
    · exact h
    · exact runSeeds_pres cfg env fuel P hstep hstart rest _
        (crawlLoop_pres cfg env seed P (hstep seed) fuel _ (hstart seed s h))

theorem budgetOk_lt (cfg : Config) (s : State) (hmax : 0 < cfg.maxPages)
    (hb : budgetOk cfg s = true) : s.pagesCrawled < cfg.maxPages := by
  unfold budgetOk at hb
  simp only [Bool.or_eq_true, beq_iff_eq, decide_eq_true_eq] at hb
  rcases hb with hb | hb
  · omega
  · exact hb

theorem loopStep_pages_le (cfg : Config) (env : Env) (sd : String) (s : State)
    (hmax : 0 < cfg.maxPages) (h : s.pagesCrawled ≤ cfg.maxPages) :
    (loopStep cfg env sd s).pagesCrawled ≤ cfg.maxPages := by
  rcases loopStep_split cfg env sd s with ⟨-, heq⟩ | ⟨e, rest, hq, hbud, hc⟩
  · rw [heq]; exact h
  · have hlt := budgetOk_lt cfg s hmax hbud
    rcases hc with ⟨-, heq⟩ | ⟨-, -, -, hc⟩
    · rw [heq]; exact h
    · rcases hc with ⟨-, heq⟩ | ⟨-, -, heq⟩ | ⟨-, -, -, heq⟩ | ⟨-, -, -, heq⟩ <;>
        rw [heq] <;>
        simp only [failState, crashState, fileState, htmlState] <;> omega

theorem mem_sleepEvs {ev : Event} {s : State} {e : Entry}
    (h : ev ∈ sleepEvs s e) : ev = Event.slept e.url := by
  unfold sleepEvs at h
  split_ifs at h
  · simpa using h
  · exact absurd h (List.not_mem_nil _)

theorem loopStep_fetch_depth (cfg : Config) (env : Env) (sd : String)
    (s : State)
    (h : ∀ u d ok, Event.fetched u d ok ∈ s.events → d ≤ cfg.maxDepth) :
    ∀ u d ok, Event.fetched u d ok ∈ (loopStep cfg env sd s).events →
      d ≤ cfg.maxDepth := by
  intro u d ok hmem
  rcases loopStep_split cfg env sd s with ⟨-, heq⟩ | ⟨e, rest, hq, hbud, hc⟩
  · rw [heq] at hmem; exact h u d ok hmem
  · rcases hc with ⟨-, heq⟩ | ⟨-, hdep, -, hc⟩
    · rw [heq] at hmem
      simp only [skipState, List.mem_append, List.mem_cons,
        List.not_mem_nil, or_false] at hmem
      rcases hmem with hmem | hmem
      · exact h u d ok hmem
      · simp at hmem
    · rcases hc with ⟨-, heq⟩ | ⟨-, -, heq⟩ | ⟨-, -, -, heq⟩ | ⟨-, -, -, heq⟩ <;>
        rw [heq] at hmem
      · simp only [failState, List.mem_append, List.mem_cons,
          List.not_mem_nil, or_false] at hmem
        rcases hmem with ((hmem | hmem) | hmem) | hmem
        · exact h u d ok hmem
        · simp at hmem
        · exact absurd (mem_sleepEvs hmem) (by simp)
        · simp only [Event.fetched.injEq] at hmem
          obtain ⟨-, rfl, -⟩ := hmem
          exact hdep
      · simp only [crashState, List.mem_append, List.mem_cons,
          List.not_mem_nil, or_false] at hmem
        rcases hmem with ((hmem | hmem) | hmem) | hmem | hmem
        · exact h u d ok hmem
        · simp at hmem
        · exact absurd (mem_sleepEvs hmem) (by simp)
        · simp only [Event.fetched.injEq] at hmem
          obtain ⟨-, rfl, -⟩ := hmem
          exact hdep
        · simp at hmem
      · simp only [fileState, List.mem_append, List.mem_cons,
          List.not_mem_nil, or_false] at hmem
        rcases hmem with ((hmem | hmem) | hmem) | hmem | hmem
        · exact h u d ok hmem
        · simp at hmem
        · exact absurd (mem_sleepEvs hmem) (by simp)
        · simp only [Event.fetched.injEq] at hmem
          obtain ⟨-, rfl, -⟩ := hmem
          exact hdep
        · simp at hmem
      · simp only [htmlState, List.mem_append, List.mem_cons,
          List.not_mem_nil, or_false] at hmem
        rcases hmem with (((hmem | hmem) | hmem) | hmem | hmem) | hmem
        · exact h u d ok hmem
        · simp at hmem
        · exact absurd (mem_sleepEvs hmem) (by simp)
        · simp only [Event.fetched.injEq] at hmem
          obtain ⟨-, rfl, -⟩ := hmem
          exact hdep
        · simp at hmem
        · simp only [List.mem_map] at hmem
          obtain ⟨a, ha, hx⟩ := hmem
          simp at hx

/-- C2: an over-depth entry is discarded before any fetch: every fetch
event of every run carries a depth that is at most the configured maximum
depth. -/
theorem C2_no_fetch_beyond_depth (cfg : Config) (env : Env)
    (seeds : List String) (fuel : Nat) (u : String) (d : Nat) (ok : Bool)
    (hmem : Event.fetched u d ok ∈ (runCrawler cfg env seeds fuel).events) :
    d ≤ cfg.maxDepth := by
  have hall := runSeeds_pres cfg env fuel
    (fun s => ∀ u d ok, Event.fetched u d ok ∈ s.events → d ≤ cfg.maxDepth)
    (fun sd s h => loopStep_fetch_depth cfg env sd s h)
    (fun _ _ h => h)
    seeds initState (fun u d ok hm => absurd hm (List.not_mem_nil _))
  exact hall u d ok hmem

/-- Witness for C2: a concrete run's fetch event, at depth 0 with bound 2. -/
theorem C2_no_fetch_beyond_depth_witness :
    Event.fetched "https://h/" 0 false ∈
        (runCrawler ⟨0, 2⟩ envW ["https://h/"] 2).events ∧ (0 : Nat) ≤ 2 :=
  ⟨by decide, C2_no_fetch_beyond_depth ⟨0, 2⟩ envW ["https://h/"] 2
    "https://h/" 0 false (by decide)⟩

/-! ## Visited-set properties (C3) -/

/-- Does this event record a call of `fetch_page` for URL `u`? -/
def isFetchOf (u : String) : Event → Bool
  | .fetched v _ _ => v == u
  | _ => false

/-- Number of fetch events for `u` in a trace. -/
def fetchCount (u : String) (evs : List Event) : Nat :=
  evs.countP (isFetchOf u)

theorem countP_sleepEvs (u : String) (s : State) (e : Entry) :
    (sleepEvs s e).countP (isFetchOf u) = 0 := by
  unfold sleepEvs
  split_ifs <;> simp [isFetchOf]

theorem countP_enqMap (u : String) (l : List Entry) :
    (l.map Event.enq).countP (isFetchOf u) = 0 := by
  induction l with
  | nil => rfl
  | cons a t ih => simp [List.countP_cons, isFetchOf, ih]

theorem count_step (u : String) (s : State) (e : Entry)
    (hvis : e.url ∉ s.visited)
    (h : ∀ u, (u ∉ s.visited → fetchCount u s.events = 0) ∧
      fetchCount u s.events ≤ 1)
    (evs' : List Event) (vis' : List String)
    (hevs : fetchCount u evs' =
      fetchCount u s.events + (if e.url = u then 1 else 0))
    (hvis' : vis' = s.visited ++ [e.url]) :
    (u ∉ vis' → fetchCount u evs' = 0) ∧ fetchCount u evs' ≤ 1 := by
  subst hvis'
  constructor
  · intro hnv
    rw [List.mem_append] at hnv
    push_neg at hnv
    have hne : e.url ≠ u := by
      intro he
      exact hnv.2 (by simp [he])
    rw [hevs, if_neg hne, Nat.add_zero]
    exact (h u).1 hnv.1
  · by_cases hu : e.url = u
    · subst hu
      have h0 : fetchCount e.url s.events = 0 := (h e.url).1 hvis
      rw [hevs, h0, if_pos rfl]
    · rw [hevs, if_neg hu, Nat.add_zero]
      exact (h u).2

theorem loopStep_fetchCount (cfg : Config) (env : Env) (sd : String)
    (s : State)
    (h : ∀ u, (u ∉ s.visited → fetchCount u s.events = 0) ∧
      fetchCount u s.events ≤ 1) :
    ∀ u, (u ∉ (loopStep cfg env sd s).visited →
        fetchCount u (loopStep cfg env sd s).events = 0) ∧
      fetchCount u (loopStep cfg env sd s).events ≤ 1 := by
  intro u
  rcases loopStep_split cfg env sd s with ⟨-, heq⟩ | ⟨e, rest, hq, hbud, hc⟩
  · rw [heq]; exact h u
  · rcases hc with ⟨-, heq⟩ | ⟨hvis, -, -, hc⟩
    · rw [heq]
      have hcount : fetchCount u (skipState s e rest).events =
          fetchCount u s.events := by
        simp [skipState, fetchCount, List.countP_append, List.countP_cons,
          isFetchOf]
      refine ⟨fun hnv => ?_, ?_⟩
      · rw [hcount]
        exact (h u).1 hnv
      · rw [hcount]
        exact (h u).2
    · rcases hc with ⟨-, heq⟩ | ⟨-, -, heq⟩ | ⟨-, -, -, heq⟩ | ⟨-, -, -, heq⟩ <;>
        rw [heq]
      · refine count_step u s e hvis h _ _ ?_ rfl
        by_cases hu : e.url = u <;>
          simp [failState, fetchCount, List.countP_append, List.countP_cons,
            isFetchOf, countP_sleepEvs, hu]
      · refine count_step u s e hvis h _ _ ?_ rfl
        by_cases hu : e.url = u <;>
          simp [crashState, fetchCount, List.countP_append, List.countP_cons,
            isFetchOf, countP_sleepEvs, hu]
      · refine count_step u s e hvis h _ _ ?_ rfl
        by_cases hu : e.url = u <;>
          simp [fileState, fetchCount, List.countP_append, List.countP_cons,
            isFetchOf, countP_sleepEvs, hu]
      · refine count_step u s e hvis h _ _ ?_ rfl
        by_cases hu : e.url = u <;>
          simp [htmlState, fetchCount, List.countP_append, List.countP_cons,
            isFetchOf, countP_sleepEvs, countP_enqMap, hu]

theorem loopStep_visited_nodup (cfg : Config) (env : Env) (sd : String)
    (s : State) (h : s.visited.Nodup) :
    (loopStep cfg env sd s).visited.Nodup := by
  rcases loopStep_split cfg env sd s with ⟨-, heq⟩ | ⟨e, rest, hq, hbud, hc⟩
  · rw [heq]; exact h
  · rcases hc with ⟨-, heq⟩ | ⟨hvis, -, -, hc⟩
    · rw [heq]; exact h
    · rcases hc with ⟨-, heq⟩ | ⟨-, -, heq⟩ | ⟨-, -, -, heq⟩ | ⟨-, -, -, heq⟩ <;>
        rw [heq] <;>
        simp only [failState, crashState, fileState, htmlState] <;>
        · refine h.append (List.nodup_singleton _) ?_
          intro a ha hb
          rw [List.mem_singleton] at hb
          subst hb
          exact hvis ha

theorem loopStep_visited_mono (cfg : Config) (env : Env) (sd : String)
    (s : State) : ∀ v ∈ s.visited, v ∈ (loopStep cfg env sd s).visited := by
  intro v hv
  rcases loopStep_split cfg env sd s with ⟨-, heq⟩ | ⟨e, rest, hq, hbud, hc⟩
  · rw [heq]; exact hv
  · rcases hc with ⟨-, heq⟩ | ⟨-, -, -, hc⟩
    · rw [heq]; exact hv
    · rcases hc with ⟨-, heq⟩ | ⟨-, -, heq⟩ | ⟨-, -, -, heq⟩ | ⟨-, -, -, heq⟩ <;>
        rw [heq] <;>
        simp only [failState, crashState, fileState, htmlState,
          List.mem_append] <;>
        exact Or.inl hv

theorem expandLinks_not_visited (env : Env) (sd : String)
    (visited : List String) (d : Nat) (cur : String) (links : List String) :
    ∀ e ∈ expandLinks env sd visited d cur links, e.url ∉ visited := by
  intro e he
  unfold expandLinks at he
  rw [List.mem_filterMap] at he
  obtain ⟨link, hl, hf⟩ := he
  split_ifs at hf with hg hfile <;>
    rw [Bool.and_eq_true, Bool.not_eq_true'] at hg <;>
    obtain rfl := Option.some.inj hf <;>
    exact (contains_false_iff visited link).mp hg.1

/-- C3 amended: a URL enters the visited set at most once (the set holds
no duplicates); fetching (processing) happens at most once per URL per run;
the visited set only grows across a loop iteration; and a link that is
already visited is never enqueued again by link expansion.  (A stale
duplicate frontier entry enqueued before its URL was visited can still be
dequeued later, but is then discarded — see the counterexample.) -/
theorem C3_processed_at_most_once (cfg : Config) (env : Env)
    (seeds : List String) (fuel : Nat) (u : String) (sd : String) (s : State)
    (visited : List String) (d : Nat) (cur : String) (links : List String) :
    (runCrawler cfg env seeds fuel).visited.Nodup ∧
    fetchCount u (runCrawler cfg env seeds fuel).events ≤ 1 ∧
    (∀ v ∈ s.visited, v ∈ (loopStep cfg env sd s).visited) ∧
    (∀ e ∈ expandLinks env sd visited d cur links, e.url ∉ visited) := by
  refine ⟨?_, ?_, loopStep_visited_mono cfg env sd s,
    expandLinks_not_visited env sd visited d cur links⟩
  · exact runSeeds_pres cfg env fuel (fun s => s.visited.Nodup)
      (fun sd s h => loopStep_visited_nodup cfg env sd s h)
      (fun _ _ h => h)
      seeds initState List.nodup_nil
  · have hall := runSeeds_pres cfg env fuel
      (fun s => ∀ u, (u ∉ s.visited → fetchCount u s.events = 0) ∧
        fetchCount u s.events ≤ 1)
      (fun sd s h => loopStep_fetchCount cfg env sd s h)
      (fun _ _ h => h)
      seeds initState
      (fun u => ⟨fun _ => rfl, by simp [initState, fetchCount]⟩)
    exact (hall u).2

/-- Witness for C3 at concrete inputs. -/
theorem C3_processed_at_most_once_witness :
    (runCrawler ⟨0, 1⟩ envW ["https://h/"] 2).visited.Nodup ∧
    fetchCount "https://h/" (runCrawler ⟨0, 1⟩ envW ["https://h/"] 2).events ≤ 1 ∧
    "v" ∈ (loopStep ⟨0, 1⟩ envW "sd" ⟨["v"], 0, [], [], [], [], false⟩).visited ∧
    "https://h/y" ∉ ["https://h/z"] :=
  ⟨(C3_processed_at_most_once ⟨0, 1⟩ envW ["https://h/"] 2 "https://h/" "sd"
      ⟨["v"], 0, [], [], [], [], false⟩ ["https://h/z"] 0 "c" ["https://h/y"]).1,
    (C3_processed_at_most_once ⟨0, 1⟩ envW ["https://h/"] 2 "https://h/" "sd"
      ⟨["v"], 0, [], [], [], [], false⟩ ["https://h/z"] 0 "c" ["https://h/y"]).2.1,
    (C3_processed_at_most_once ⟨0, 1⟩ envW ["https://h/"] 2 "https://h/" "sd"
      ⟨["v"], 0, [], [], [], [], false⟩ ["https://h/z"] 0 "c" ["https://h/y"]).2.2.1
      "v" (by decide),
    (C3_processed_at_most_once ⟨0, 1⟩ envW ["https://h/"] 2 "https://h/" "sd"
      ⟨["v"], 0, [], [], [], [], false⟩ ["https://h/z"] 0 "c" ["https://h/y"]).2.2.2
      ⟨"https://h/y", 1, "c"⟩ (by decide)⟩

/-- Environment in which two pages both link to a common URL `u`, so `u`
sits in the frontier twice before its first processing. -/
def envD : Env where
  canFetch := fun _ => true
  fetch := fun _ => ⟨some "b", 200, "text/html", 1⟩
  links := fun url =>
    if url == "https://h/" then ["https://h/p1", "https://h/p2"]
    else if url == "https://h/p1" then ["https://h/u"]
    else if url == "https://h/p2" then ["https://h/u"]
    else []
  parse := fun _ => ⟨"https", "h", "/"⟩
  mkdirOk := fun _ => true
  saveOk := fun _ => true
  metaOk := fun _ => true
  savePath := fun _ _ => "p"

/-- C3 as stated is false: a URL already in the visited set can be
dequeued again.  In `envD` both `p1` and `p2` discover `u` before `u` is
processed, so the queue holds `u` twice; after the first copy is processed
the second copy is still dequeued (and only then discarded), which the
trace records as a dequeue event with the already-visited flag set. -/
theorem C3_counterexample :
    ¬ (∀ (cfg : Config) (env : Env) (seeds : List String) (fuel : Nat)
        (u : String) (d : Nat),
        Event.deq u d true ∉ (runCrawler cfg env seeds fuel).events) := by
  intro h
  exact h ⟨0, 3⟩ envD ["https://h/"] 6 "https://h/u" 2 (by decide)

/-! ## Politeness delay (C8) -/

/-- Does this event record a fetch that returned a body? -/
def isOkFetch : Event → Bool
  | .fetched _ _ ok => ok
  | _ => false

/-- Number of body-returning fetches recorded in a trace. -/
def okFetchCount (evs : List Event) : Nat :=
  evs.countP isOkFetch

/-- Any fetch event. -/
def isFetchEv : Event → Bool
  | .fetched _ _ _ => true
  | _ => false

/-- A politeness-sleep event. -/
def isSleptEv : Event → Bool
  | .slept _ => true
  | _ => false

theorem countP_sleepEvs_ok (s : State) (e : Entry) :
    (sleepEvs s e).countP isOkFetch = 0 := by
  unfold sleepEvs
  split_ifs <;> simp [isOkFetch]

theorem countP_enqMap_ok (l : List Entry) :
    (l.map Event.enq).countP isOkFetch = 0 := by
  induction l with
  | nil => rfl
  | cons a t ih => simp [List.countP_cons, isOkFetch, ih]

theorem countP_enqMap_slept (l : List Entry) :
    (l.map Event.enq).countP isSleptEv = 0 := by
  induction l with
  | nil => rfl
  | cons a t ih => simp [List.countP_cons, isSleptEv, ih]

theorem countP_comp_enq_ok (l : List Entry) :
    l.countP (isOkFetch ∘ Event.enq) = 0 := by
  induction l with
  | nil => rfl
  | cons a t ih => simp [List.countP_cons, isOkFetch, Function.comp, ih]

theorem countP_comp_enq_slept (l : List Entry) :
    l.countP (isSleptEv ∘ Event.enq) = 0 := by
  induction l with
  | nil => rfl
  | cons a t ih => simp [List.countP_cons, isSleptEv, Function.comp, ih]

theorem loopStep_pages_eq_okCount (cfg : Config) (env : Env) (sd : String)
    (s : State) (h : s.pagesCrawled = okFetchCount s.events) :
    (loopStep cfg env sd s).pagesCrawled =
      okFetchCount (loopStep cfg env sd s).events := by
  have h' : s.pagesCrawled = s.events.countP isOkFetch := h
  rcases loopStep_split cfg env sd s with ⟨-, heq⟩ | ⟨e, rest, hq, hbud, hc⟩
  · rw [heq]; exact h
  · rcases hc with ⟨-, heq⟩ | ⟨-, -, -, hc⟩
    · rw [heq]
      simp [skipState, okFetchCount, List.countP_append, List.countP_cons,
        isOkFetch]
      omega
    · rcases hc with ⟨-, heq⟩ | ⟨-, -, heq⟩ | ⟨-, -, -, heq⟩ | ⟨-, -, -, heq⟩ <;>
        rw [heq] <;>
        simp [failState, crashState, fileState, htmlState, okFetchCount,
          List.countP_append, List.countP_cons, isOkFetch,
          countP_sleepEvs_ok, countP_enqMap_ok, countP_comp_enq_ok] <;>
        omega

/-- C1: with a positive configured page budget, `pages_crawled` — which is
incremented exactly once per fetch that returns a body, and therefore always
equals the number of body-returning fetch events of the run — never exceeds
the budget: the `while` guard re-checks it before each dequeue and the seed
driver re-checks it before each new seed. -/
theorem C1_pages_within_budget (cfg : Config) (env : Env)
    (seeds : List String) (fuel : Nat) (hmax : 0 < cfg.maxPages) :
    (runCrawler cfg env seeds fuel).pagesCrawled ≤ cfg.maxPages ∧
    (runCrawler cfg env seeds fuel).pagesCrawled =
      okFetchCount (runCrawler cfg env seeds fuel).events :=
  ⟨runSeeds_pres cfg env fuel (fun s => s.pagesCrawled ≤ cfg.maxPages)
      (fun sd s h => loopStep_pages_le cfg env sd s hmax h)
      (fun _ _ h => h)
      seeds initState (Nat.zero_le _),
    runSeeds_pres cfg env fuel
      (fun s => s.pagesCrawled = okFetchCount s.events)
      (fun sd s h => loopStep_pages_eq_okCount cfg env sd s h)
      (fun _ _ h => h)
      seeds initState rfl⟩

/-- Witness for C1 with budget 1. -/
theorem C1_pages_within_budget_witness :
    0 < (1 : Nat) ∧
      ((runCrawler ⟨1, 3⟩ envW ["https://h/"] 3).pagesCrawled ≤ 1 ∧
        (runCrawler ⟨1, 3⟩ envW ["https://h/"] 3).pagesCrawled =
          okFetchCount (runCrawler ⟨1, 3⟩ envW ["https://h/"] 3).events) :=
  ⟨by decide, C1_pages_within_budget ⟨1, 3⟩ envW ["https://h/"] 3 (by decide)⟩

theorem loopStep_sleep_layout (cfg : Config) (env : Env) (sd : String)
    (s : State) (e : Entry) (rest : List Entry)
    (hcr : s.crashed = false)
    (hq : s.queue = e :: rest) (hbud : budgetOk cfg s = true)
    (hvis : e.url ∉ s.visited) (hdep : e.depth ≤ cfg.maxDepth)
    (hrob : env.canFetch e.url = true) :
    ∃ tail, (loopStep cfg env sd s).events =
      s.events ++ [Event.deq e.url e.depth false] ++ sleepEvs s e ++ tail ∧
      tail.countP isSleptEv = 0 := by
  rcases loopStep_split cfg env sd s with ⟨hex, -⟩ | ⟨e', rest', hq', hbud', hc⟩
  · rcases hex with hex | hex | hex
    · rw [hcr] at hex; cases hex
    · rw [hq] at hex; cases hex
    · rw [hbud] at hex; cases hex
  · rw [hq] at hq'
    obtain ⟨rfl, rfl⟩ : e = e' ∧ rest = rest' :=
      ⟨(List.cons.inj hq').1, (List.cons.inj hq').2⟩
    rcases hc with ⟨hskip, -⟩ | ⟨-, -, -, hc⟩
    · rcases hskip with hx | hx | hx
      · exact absurd hx hvis
      · omega
      · rw [hrob] at hx; cases hx
    · rcases hc with ⟨-, heq⟩ | ⟨-, -, heq⟩ | ⟨-, -, -, heq⟩ | ⟨-, -, -, heq⟩ <;>
        rw [heq]
      · exact ⟨[Event.fetched e.url e.depth false], by simp [failState],
          by simp [isSleptEv]⟩
      · exact ⟨[Event.fetched e.url e.depth true, Event.crashed e.url],
          by simp [crashState],
          by simp [List.countP_cons, isSleptEv]⟩
      · exact ⟨[Event.fetched e.url e.depth true,
            Event.saved e.url true (env.saveOk e.url)], by simp [fileState],
          by simp [List.countP_cons, isSleptEv]⟩
      · exact ⟨[Event.fetched e.url e.depth true,
            Event.saved e.url false (env.saveOk e.url)] ++
            (newLinkEntries cfg env sd s e).map Event.enq,
          by simp [htmlState, List.append_assoc],
          by simp [List.countP_append, List.countP_cons, isSleptEv,
            countP_enqMap_slept]⟩

/-- C8 amended: a politeness sleep precedes the fetch of a processed entry
iff `pages_crawled` is positive at that moment (that is the exact guard in
the code), and `pages_crawled` counts precisely the fetches of the run that
returned a body.  Hence the delay is skipped before every fetch up to and
including the first fetch that returns a body — not only before the very
first fetch of the run: a run whose early fetches all fail performs several
undelayed fetches. -/
theorem C8_politeness_delay (cfg : Config) (env : Env) (seeds : List String)
    (fuel : Nat) (sd : String) (s : State) (e : Entry) (rest : List Entry) :
    ((runCrawler cfg env seeds fuel).pagesCrawled =
      okFetchCount (runCrawler cfg env seeds fuel).events) ∧
    (s.crashed = false → s.queue = e :: rest → budgetOk cfg s = true →
      e.url ∉ s.visited →
      e.depth ≤ cfg.maxDepth → env.canFetch e.url = true →
      ∃ tail, (loopStep cfg env sd s).events =
        s.events ++ [Event.deq e.url e.depth false] ++ sleepEvs s e ++ tail ∧
        tail.countP isSleptEv = 0) := by
  constructor
  · exact runSeeds_pres cfg env fuel
      (fun s => s.pagesCrawled = okFetchCount s.events)
      (fun sd s h => loopStep_pages_eq_okCount cfg env sd s h)
      (fun _ _ h => h)
      seeds initState rfl
  · exact fun hcr hq hbud hvis hdep hrob =>
      loopStep_sleep_layout cfg env sd s e rest hcr hq hbud hvis hdep hrob

/-- State for the C8 witness: one page already crawled, one entry queued. -/
def stateW : State := ⟨[], 1, [⟨"https://h/x", 1, "pp"⟩], [], [], [], false⟩

/-- Witness for C8 at concrete inputs: with one page already crawled, the
iteration's events place a sleep between the dequeue and the rest. -/
theorem C8_politeness_delay_witness :
    ((runCrawler ⟨0, 3⟩ envW ["https://h/"] 2).pagesCrawled =
      okFetchCount (runCrawler ⟨0, 3⟩ envW ["https://h/"] 2).events) ∧
    ∃ tail, (loopStep ⟨0, 3⟩ envW "sd" stateW).events =
      stateW.events ++ [Event.deq "https://h/x" 1 false] ++
        sleepEvs stateW ⟨"https://h/x", 1, "pp"⟩ ++ tail ∧
      tail.countP isSleptEv = 0 :=
  ⟨(C8_politeness_delay ⟨0, 3⟩ envW ["https://h/"] 2 "sd" stateW
      ⟨"https://h/x", 1, "pp"⟩ []).1,
    (C8_politeness_delay ⟨0, 3⟩ envW ["https://h/"] 2 "sd" stateW
      ⟨"https://h/x", 1, "pp"⟩ []).2 rfl rfl (by decide) (by decide)
      (by decide) (by decide)⟩

/-- Environment in which the first seed's fetch returns no body and the
second seed's fetch succeeds. -/
def envF : Env where
  canFetch := fun _ => true
  fetch := fun u =>
    if u == "https://h/s1" then failRes else ⟨some "b", 200, "text/html", 1⟩
  links := fun _ => []
  parse := fun _ => ⟨"https", "h", "/"⟩
  mkdirOk := fun _ => true
  saveOk := fun _ => true
  metaOk := fun _ => true
  savePath := fun _ _ => "p"

/-- C8 as stated is false: it would make every fetch after the first one of
the run be preceded by a sleep, yet in `envF` the first fetch returns no
body, so `pages_crawled` is still 0 and the run's second fetch happens with
no sleep at all — the trace has two fetch events and zero sleep events. -/
theorem C8_counterexample :
    ¬ (∀ (cfg : Config) (env : Env) (seeds : List String) (fuel : Nat),
        2 ≤ (runCrawler cfg env seeds fuel).events.countP isFetchEv →
        1 ≤ (runCrawler cfg env seeds fuel).events.countP isSleptEv) := by
  intro h
  have h2 := h ⟨0, 3⟩ envF ["https://h/s1", "https://h/s2"] 4 (by decide)
  exact absurd h2 (by decide)

/-! ## Persistence failures (C9)

The `try` at src/crawler.py lines 261-268 catches open/write failures
(`save_raw` then returns `""`), and the `try` at lines 284-292 catches
every metadata failure, its `mkdir` included: those paths are recovered and
traversal continues (`write_failure_recovered` below).  But the `mkdir`
calls of `save_raw` (line 248 for files, line 254 for HTML) sit OUTSIDE its
`try`: an I/O failure there raises past `save_raw` and `crawl_seed` and
aborts the whole run, contradicting the claim — a bug in the code relative
to the stated recovery design (`C9_mkdir_failure_aborts`). -/

/-- The caught persistence failures are recovered as the claim says: when
directory creation succeeds, a failing content write makes `save_raw`
return `""` instead of raising and leaves the blob store untouched, a
failing metadata write leaves the record log untouched, and the iteration
completes normally: every remaining frontier entry is still queued. -/
theorem write_failure_recovered (cfg : Config) (env : Env)
    (sd : String) (s : State) (e : Entry) (rest : List Entry)
    (hcr : s.crashed = false)
    (hq : s.queue = e :: rest) (hbud : budgetOk cfg s = true)
    (hvis : e.url ∉ s.visited) (hdep : e.depth ≤ cfg.maxDepth)
    (hrob : env.canFetch e.url = true) (c : String)
    (hbody : (env.fetch e.url).body = some c)
    (hmk : env.mkdirOk e.url = true) :
    (∀ f, env.saveOk e.url = false → save_raw env e.url f = some "") ∧
    (env.saveOk e.url = false → (loopStep cfg env sd s).blobs = s.blobs) ∧
    (env.metaOk e.url = false → (loopStep cfg env sd s).records = s.records) ∧
    (∀ x ∈ rest, x ∈ (loopStep cfg env sd s).queue) := by
  have hsave : ∀ f, env.saveOk e.url = false → save_raw env e.url f = some "" := by
    intro f hsf
    simp [save_raw, tryWrite, hmk, hsf]
  rcases loopStep_split cfg env sd s with ⟨hex, -⟩ | ⟨e', rest', hq', hbud', hc⟩
  · rcases hex with hex | hex | hex
    · rw [hcr] at hex; cases hex
    · rw [hq] at hex; cases hex
    · rw [hbud] at hex; cases hex
  · rw [hq] at hq'
    obtain ⟨rfl, rfl⟩ : e = e' ∧ rest = rest' :=
      ⟨(List.cons.inj hq').1, (List.cons.inj hq').2⟩
    rcases hc with ⟨hskip, -⟩ | ⟨-, -, -, hc⟩
    · rcases hskip with hx | hx | hx
      · exact absurd hx hvis
      · omega
      · rw [hrob] at hx; cases hx
    · rcases hc with ⟨hfb, -⟩ | ⟨-, hmk', -⟩ | ⟨-, -, -, heq⟩ | ⟨-, -, -, heq⟩
      · rw [hbody] at hfb; cases hfb
      · rw [hmk] at hmk'; cases hmk'
      · refine ⟨hsave, ?_, ?_, ?_⟩ <;> rw [heq]
        · intro hsf
          simp [fileState, hsf]
        · intro hmf
          simp [fileState, log_metadata, hmf]
        · intro x hx
          simpa [fileState] using hx
      · refine ⟨hsave, ?_, ?_, ?_⟩ <;> rw [heq]
        · intro hsf
          simp [htmlState, hsf]
        · intro hmf
          simp [htmlState, log_metadata, hmf]
        · intro x hx
          simp [htmlState, List.mem_append]
          exact Or.inl hx

/-- Environment whose directory creation fails while fetches succeed. -/
def envMK : Env where
  canFetch := fun _ => true
  fetch := fun _ => ⟨some "b", 200, "text/html", 1⟩
  links := fun _ => []
  parse := fun _ => ⟨"https", "h", "/"⟩
  mkdirOk := fun _ => false
  saveOk := fun _ => true
  metaOk := fun _ => true
  savePath := fun _ _ => "p"

/-- C9's failing input evaluated: when `save_raw`'s directory creation
raises (its `mkdir` calls sit outside the `try` of lines 261-268),
`save_raw` does not signal failure but throws — the run crashes after the
first entry: the remaining seed is never fetched (one fetch event in the
whole trace), no metadata record is durably written, and traversal does
not continue, contrary to the claim's recovery guarantee. -/
theorem C9_mkdir_failure_aborts :
    save_raw envMK "https://h/a" false = none ∧
    (runCrawler ⟨0, 3⟩ envMK ["https://h/a", "https://h/b"] 4).crashed = true ∧
    (runCrawler ⟨0, 3⟩ envMK ["https://h/a", "https://h/b"] 4).events.countP
      isFetchEv = 1 ∧
    (runCrawler ⟨0, 3⟩ envMK ["https://h/a", "https://h/b"] 4).records = [] := by
  decide

end Crawler
